import Mathlib

/-!
Verification of the cifsd SMB server core (dialect negotiation, 8.3 short-name
mangling, dot-entry enumeration, directory record filling, and the socket read
loop), shallowly embedded from src/smb_common.c and src/connect.c.
-/

set_option maxRecDepth 4000

namespace Cifsd

/-! ## Dialect table (src/smb_common.c lines 26-72) -/

/-- Modelled from the spec: the protocol-family index constants (this and the
six following definitions) come from smb_common.h, which is not under src/;
per the spec they are strictly increasing from oldest (SMB1) to newest
(SMB 3.1.1), and the concrete values below follow that ordering. -/
def SMB1_PROT : Nat := 0
def SMB2_PROT : Nat := 1
def SMB21_PROT : Nat := 2
def SMB2X_PROT : Nat := 3
def SMB30_PROT : Nat := 4
def SMB302_PROT : Nat := 5
def SMB311_PROT : Nat := 6

/-- Modelled from the spec: 16-bit wire identifiers of the dialects
(smb_common.h, not under src/); the values are the standard SMB wire ids,
matching the numeric scenario in the spec (0x0202, 0x0210, 0x0300). -/
def SMB10_PROT_ID : Nat := 0x00
def SMB20_PROT_ID : Nat := 0x0202
def SMB21_PROT_ID : Nat := 0x0210
def SMB30_PROT_ID : Nat := 0x0300
def SMB302_PROT_ID : Nat := 0x0302
def SMB311_PROT_ID : Nat := 0x0311

/-- Modelled from the spec: the sentinel for an unsupported negotiation outcome
(smb_common.h, not under src/). -/
def BAD_PROT_ID : Nat := 0xFFFF

/-- struct smb_protocol (smb_common.c lines 26-31). -/
structure SmbProtocol where
  index : Nat
  name : String
  prot : String
  prot_id : Nat
deriving DecidableEq

/-- smb_protos (smb_common.c lines 33-72), in source array order.  The first
entry is compiled only under CONFIG_CIFS_INSECURE_SERVER, given here as the
flag `insecure`.  Note the SMB 3.1.1 entry appears in the array before the
SMB 2.002 / 2.1 / 3.0 / 3.02 entries, exactly as in the source. -/
def smb_protos (insecure : Bool) : List SmbProtocol :=
  (if insecure then [⟨SMB1_PROT, "\x02NT LM 0.12", "NT1", SMB10_PROT_ID⟩] else [])
  ++ [⟨SMB311_PROT, "\x02SMB 3.1.1", "SMB3_11", SMB311_PROT_ID⟩,
      ⟨SMB2_PROT, "\x02SMB 2.002", "SMB2_02", SMB20_PROT_ID⟩,
      ⟨SMB21_PROT, "\x02SMB 2.1", "SMB2_10", SMB21_PROT_ID⟩,
      ⟨SMB30_PROT, "\x02SMB 3.0", "SMB3_00", SMB30_PROT_ID⟩,
      ⟨SMB302_PROT, "\x02SMB 3.02", "SMB3_02", SMB302_PROT_ID⟩]

/-- server_conf fields consulted by supported_protocol (server.h, not under
src/; the spec calls this the configured inclusive [min,max] supported range). -/
structure ServerConf where
  min_protocol : Nat
  max_protocol : Nat
deriving DecidableEq

/-- supported_protocol (smb_common.c lines 164-168). -/
def supported_protocol (conf : ServerConf) (idx : Nat) : Bool :=
  decide (conf.min_protocol ≤ idx) && decide (idx ≤ conf.max_protocol)

/-! ## Dialect lookup (smb_common.c lines 170-230)

`lower_dialect` walks the packed client string buffer from its tail, so the
inner loop of cifsd_lookup_dialect_by_name visits the client strings from last
to first; likewise cifsd_lookup_dialect_by_id scans `cli_dialects[count-1]`
down to `cli_dialects[0]`.  We embed the offers at the level of the decoded
string / id lists and iterate them reversed, mirroring that scan order.  The
outer loop walks the table from its last entry down to index 0, embedded as a
recursion over the reversed table list.
-/

/-- Inner loop of cifsd_lookup_dialect_by_name (lines 192-202) for one table
entry `e`: scan the client strings (already in last-to-first order); on a
string match, return the entry only if it is inside the supported range,
otherwise keep scanning. -/
def nameScanLoop (conf : ServerConf) (e : SmbProtocol) : List String → Option Nat
  | [] => none
  | d :: rest =>
    if d = e.name then
      if supported_protocol conf e.index then some e.prot_id
      else nameScanLoop conf e rest
    else nameScanLoop conf e rest

/-- Outer loop of cifsd_lookup_dialect_by_name (lines 189-203), over the table
in last-to-first order. -/
def lookupByNameAux (conf : ServerConf) (cliRev : List String) : List SmbProtocol → Nat
  | [] => BAD_PROT_ID
  | e :: rest =>
    match nameScanLoop conf e cliRev with
    | some pid => pid
    | none => lookupByNameAux conf cliRev rest

/-- cifsd_lookup_dialect_by_name (smb_common.c lines 184-205), with the client
offer given as its list of dialect strings in buffer order and the table in
array order. -/
def cifsd_lookup_dialect_by_name (conf : ServerConf) (cli_dialects : List String)
    (table : List SmbProtocol) : Nat :=
  lookupByNameAux conf cli_dialects.reverse table.reverse

/-- Inner loop of cifsd_lookup_dialect_by_id (lines 214-226) for one table
entry, scanning the offered ids (already in last-to-first order). -/
def idScanLoop (conf : ServerConf) (e : SmbProtocol) : List Nat → Option Nat
  | [] => none
  | d :: rest =>
    if d = e.prot_id then
      if supported_protocol conf e.index then some e.prot_id
      else idScanLoop conf e rest
    else idScanLoop conf e rest

/-- Outer loop of cifsd_lookup_dialect_by_id (lines 212-227). -/
def lookupByIdAux (conf : ServerConf) (cliRev : List Nat) : List SmbProtocol → Nat
  | [] => BAD_PROT_ID
  | e :: rest =>
    match idScanLoop conf e cliRev with
    | some pid => pid
    | none => lookupByIdAux conf cliRev rest

/-- cifsd_lookup_dialect_by_id (smb_common.c lines 207-230), with the offer as
its decoded list of 16-bit ids in buffer order. -/
def cifsd_lookup_dialect_by_id (conf : ServerConf) (cli_dialects : List Nat)
    (table : List SmbProtocol) : Nat :=
  lookupByIdAux conf cli_dialects.reverse table.reverse

/-! ### Order-insensitivity of the offer scans -/

theorem nameScanLoop_eq_mem (conf : ServerConf) (e : SmbProtocol) (l : List String) :
    nameScanLoop conf e l =
      if e.name ∈ l ∧ supported_protocol conf e.index then some e.prot_id else none := by
  induction l with
  | nil => simp [nameScanLoop]
  | cons d rest ih =>
    by_cases hd : d = e.name
    · subst hd
      by_cases hs : supported_protocol conf e.index
      · simp [nameScanLoop, hs]
      · simp [nameScanLoop, hs, ih]
    · have hne : e.name ∈ d :: rest ↔ e.name ∈ rest := by
        simp only [List.mem_cons, or_iff_right_iff_imp]
        exact fun h => absurd h.symm hd
      simp only [nameScanLoop, if_neg hd, ih, hne]

theorem idScanLoop_eq_mem (conf : ServerConf) (e : SmbProtocol) (l : List Nat) :
    idScanLoop conf e l =
      if e.prot_id ∈ l ∧ supported_protocol conf e.index then some e.prot_id else none := by
  induction l with
  | nil => simp [idScanLoop]
  | cons d rest ih =>
    by_cases hd : d = e.prot_id
    · subst hd
      by_cases hs : supported_protocol conf e.index
      · simp [idScanLoop, hs]
      · simp [idScanLoop, hs, ih]
    · have hne : e.prot_id ∈ d :: rest ↔ e.prot_id ∈ rest := by
        simp only [List.mem_cons, or_iff_right_iff_imp]
        exact fun h => absurd h.symm hd
      simp only [idScanLoop, if_neg hd, ih, hne]

theorem lookupByNameAux_perm (conf : ServerConf) {c c' : List String}
    (h : c.Perm c') (tr : List SmbProtocol) :
    lookupByNameAux conf c tr = lookupByNameAux conf c' tr := by
  induction tr with
  | nil => rfl
  | cons e rest ih =>
    simp only [lookupByNameAux, nameScanLoop_eq_mem, h.mem_iff, ih]

theorem lookupByIdAux_perm (conf : ServerConf) {c c' : List Nat}
    (h : c.Perm c') (tr : List SmbProtocol) :
    lookupByIdAux conf c tr = lookupByIdAux conf c' tr := by
  induction tr with
  | nil => rfl
  | cons e rest ih =>
    simp only [lookupByIdAux, idScanLoop_eq_mem, h.mem_iff, ih]

/-- Claim C7: for every dialect table, supported range and client offer, the outcome
of dialect selection is unchanged under any permutation of the offer list, for
both the string-name matching function and the numeric-id matching function. -/
theorem dialect_lookup_perm_invariant (conf : ServerConf) (table : List SmbProtocol)
    (c c' : List String) (n n' : List Nat) (hc : c.Perm c') (hn : n.Perm n') :
    cifsd_lookup_dialect_by_name conf c table = cifsd_lookup_dialect_by_name conf c' table ∧
    cifsd_lookup_dialect_by_id conf n table = cifsd_lookup_dialect_by_id conf n' table := by
  refine ⟨?_, ?_⟩
  · exact lookupByNameAux_perm conf
      ((List.reverse_perm c).trans (hc.trans (List.reverse_perm c').symm)) table.reverse
  · exact lookupByIdAux_perm conf
      ((List.reverse_perm n).trans (hn.trans (List.reverse_perm n').symm)) table.reverse

/-- Witness for C7 at a concrete permuted offer pair. -/
theorem dialect_lookup_perm_invariant_witness :
    cifsd_lookup_dialect_by_name ⟨SMB2_PROT, SMB311_PROT⟩
        ["\x02SMB 2.002", "\x02SMB 2.1"] (smb_protos false) =
      cifsd_lookup_dialect_by_name ⟨SMB2_PROT, SMB311_PROT⟩
        ["\x02SMB 2.1", "\x02SMB 2.002"] (smb_protos false) ∧
    cifsd_lookup_dialect_by_id ⟨SMB2_PROT, SMB311_PROT⟩
        [0x0202, 0x0210] (smb_protos false) =
      cifsd_lookup_dialect_by_id ⟨SMB2_PROT, SMB311_PROT⟩
        [0x0210, 0x0202] (smb_protos false) :=
  dialect_lookup_perm_invariant ⟨SMB2_PROT, SMB311_PROT⟩ (smb_protos false)
    _ _ _ _ (List.Perm.swap _ _ _) (List.Perm.swap _ _ _)

/-- Claim C1: evaluating the selection at the failing input.  With the source table
(SMB 3.1.1 listed before SMB 2.002) and the full modern supported range, a
client offering both SMB 3.1.1 and SMB 2.002 is given SMB 2.002 (0x0202), even
though the table also holds an in-range offered entry with a strictly larger
protocol-family index (SMB 3.1.1, 0x0311): the pick-newest contract and the
stated strictly-increasing array-order invariant fail on the source table. -/
theorem dialect_lookup_picks_stale_entry :
    cifsd_lookup_dialect_by_name ⟨SMB2_PROT, SMB311_PROT⟩
        ["\x02SMB 3.1.1", "\x02SMB 2.002"] (smb_protos false) = SMB20_PROT_ID ∧
    SMB20_PROT_ID ≠ SMB311_PROT_ID ∧
    (∃ e ∈ smb_protos false,
      e.prot_id = SMB311_PROT_ID ∧
      e.name ∈ ["\x02SMB 3.1.1", "\x02SMB 2.002"] ∧
      supported_protocol ⟨SMB2_PROT, SMB311_PROT⟩ e.index = true ∧
      ∀ e' ∈ smb_protos false,
        (e'.name ∈ ["\x02SMB 3.1.1", "\x02SMB 2.002"] ∧
          supported_protocol ⟨SMB2_PROT, SMB311_PROT⟩ e'.index = true) →
        e'.index ≤ e.index) := by
  decide

/-! ## 8.3 short-name mangler (src/smb_common.c lines 13-18, 343-410)

Strings are embedded as lists of byte values; a C string ends at its first
NUL, written here as `cstr`.  Byte constants: 46 is the period, 126 the magic
tilde, 95 the underscore.
-/

/-- basechars (smb_common.c line 14): the 43-character alphabet, as byte values. -/
def basechars : List Nat :=
  "0123456789ABCDEFGHIJKLMNOPQRSTUVWXYZ_-!@#$%".toList.map Char.toNat

/-- MANGLE_BASE (smb_common.c line 15): sizeof(basechars)/sizeof(char) - 1.
The array is declared char[43] and the initializer fills all 43 slots, so this
evaluates to 42, not 43: the last alphabet character is never used. -/
def MANGLE_BASE : Nat := 43 - 1

/-- mangle(V) (smb_common.c line 18). -/
def mangle (v : Nat) : Nat := basechars.getD (v % MANGLE_BASE) 0

/-- C toupper on a byte, default locale. -/
def toupperB (c : Nat) : Nat := if 97 ≤ c ∧ c ≤ 122 then c - 32 else c

/-- The bytes of a C string up to its first NUL. -/
def cstr (s : List Nat) : List Nat := s.takeWhile (· ≠ 0)

/-- strrchr(longname, c): index of the last occurrence of byte c. -/
def strrchrIdx (s : List Nat) (c : Nat) : Option Nat :=
  match s.reverse.findIdx? (· = c) with
  | none => none
  | some j => some (s.length - 1 - j)

/-- Extension block of cifsd_extract_shortname (lines 362-378): the pair is
(extension bytes, dot_present).  The `some 0` arm is the `p == longname` branch
emitting the literal "___". -/
def mangledExt (longname : List Nat) : List Nat × Bool :=
  match strrchrIdx longname 46 with
  | some 0 => ([95, 95, 95], true)
  | some i => ((((longname.drop (i + 1)).filter (· ≠ 46)).take 3).map toupperB, true)
  | none => ([], false)

/-- Base block (lines 380-387): if the name starts with a period the first byte
is overwritten with NUL and the scan starts after it; then up to five non-period
bytes are uppercased. -/
def mangledBase (longname : List Nat) : List Nat :=
  let baseSrc := if longname.head? = some 46 then longname.drop 1 else longname
  (((baseSrc.filter (· ≠ 46)).take 5).map toupperB)

/-- Checksum block (lines 392-397): the byte sum of longname as it stands after
the base block, i.e. the empty string if the leading byte was overwritten with
NUL, modulo MANGLE_BASE * MANGLE_BASE. -/
def mangledCsum (longname : List Nat) : Nat :=
  let csumSrc := if longname.head? = some 46 then ([] : List Nat) else longname
  (csumSrc.foldl (· + ·) 0) % (MANGLE_BASE * MANGLE_BASE)

/-- cifsd_extract_shortname (smb_common.c lines 343-410), as the produced
`out` byte string; `none` is the early return 0 with no mangling (lines
357-361), whose guard is `*p == PERIOD || strcmp(p, "..") == 0`. -/
def cifsd_extract_shortname (longname0 : List Nat) : Option (List Nat) :=
  let longname := cstr longname0
  if longname.head? = some 46 ∨ longname = [46, 46] then none
  else
    some (mangledBase longname ++
      [126, mangle (mangledCsum longname / MANGLE_BASE), mangle (mangledCsum longname), 46] ++
      (if (mangledExt longname).2 then (mangledExt longname).1 else []))

/-- Byte string of an ASCII literal, for concrete inputs. -/
def strB (s : String) : List Nat := s.toList.map Char.toNat

theorem cstr_of_not_mem {l : List Nat} (h : (0 : Nat) ∉ l) : cstr l = l := by
  unfold cstr
  refine List.takeWhile_eq_self_iff.mpr ?_
  intro x hx
  have hx0 : x ≠ 0 := fun h0 => h (h0 ▸ hx)
  simpa using hx0

/-- Claim C3: evaluating the mangler at the failing input ".a".  The guard treats
every name whose first byte is a period as exempt from mangling, so ".a"
(which is neither "." nor "..") yields the no-short-name result, contradicting
the claim (and the function doc comment, which promises 0 only for "." and
".."); the "___"-extension branch is unreachable. -/
theorem extract_shortname_rejects_dot_prefixed :
    cifsd_extract_shortname (strB ".a") = none ∧
    strB ".a" ≠ strB "." ∧ strB ".a" ≠ strB ".." := by
  decide

/-- Claim C2 counterexample: at "longfilename.txt" (byte sum 1663) the produced
checksum characters are the base-42 digits of 1663 mod 42*42 through the first
42 alphabet characters, namely "@P" (64, 80); the base-43 digits of
1663 mod 43*43 through the full 43-character alphabet would be "!T" (33, 84). -/
theorem extract_shortname_checksum_not_base43 :
    (strB "longfilename.txt").foldl (· + ·) 0 = 1663 ∧
    cifsd_extract_shortname (strB "longfilename.txt") = some (strB "LONGF~@P.TXT") ∧
    (strB "LONGF~@P.TXT").getD 6 0 = 64 ∧
    (strB "LONGF~@P.TXT").getD 7 0 = 80 ∧
    basechars.getD ((1663 % (43 * 43)) / 43) 0 = 33 ∧
    basechars.getD ((1663 % (43 * 43)) % 43) 0 = 84 ∧
    (64 : Nat) ≠ 33 ∧ (80 : Nat) ≠ 84 := by
  decide

/-- Claim C2 as amended: for every mangled name, writing S for the sum of the raw
bytes of the input (up to its first NUL) reduced modulo 42 * 42 = 1764, the two
checksum characters at positions base-length + 1 and base-length + 2 of the
short name are the base-42 digits of S, most significant first, mapped through
the first 42 characters of the alphabet. -/
theorem extract_shortname_checksum_base42 (name out : List Nat)
    (h : cifsd_extract_shortname name = some out) :
    out.getD ((mangledBase (cstr name)).length + 1) 0 =
      basechars.getD ((((cstr name).foldl (· + ·) 0 % (42 * 42)) / 42) % 42) 0 ∧
    out.getD ((mangledBase (cstr name)).length + 2) 0 =
      basechars.getD (((cstr name).foldl (· + ·) 0 % (42 * 42)) % 42) 0 := by
  unfold cifsd_extract_shortname at h
  by_cases hg : (cstr name).head? = some 46 ∨ cstr name = [46, 46]
  · simp [hg] at h
  · simp only [if_neg hg] at h
    have hhead : (cstr name).head? ≠ some 46 := fun hc => hg (Or.inl hc)
    have hcs : mangledCsum (cstr name) = ((cstr name).foldl (· + ·) 0) % (42 * 42) := by
      unfold mangledCsum
      simp [hhead, MANGLE_BASE]
    rw [Option.some_inj] at h
    subst h
    refine ⟨?_, ?_⟩
    · rw [List.append_assoc, List.getD_append_right _ _ _ _ (Nat.le_add_right _ 1),
        Nat.add_sub_cancel_left, List.getD_append _ _ _ _ (by simp)]
      simp [mangle, hcs, MANGLE_BASE]
    · rw [List.append_assoc, List.getD_append_right _ _ _ _ (Nat.le_add_right _ 2),
        Nat.add_sub_cancel_left, List.getD_append _ _ _ _ (by simp)]
      simp [mangle, hcs, MANGLE_BASE]

/-- Witness for the amended C2 at "longfilename.txt". -/
theorem extract_shortname_checksum_base42_witness :
    (strB "LONGF~@P.TXT").getD ((mangledBase (cstr (strB "longfilename.txt"))).length + 1) 0 =
      basechars.getD ((((cstr (strB "longfilename.txt")).foldl (· + ·) 0 % (42 * 42)) / 42) % 42) 0 ∧
    (strB "LONGF~@P.TXT").getD ((mangledBase (cstr (strB "longfilename.txt"))).length + 2) 0 =
      basechars.getD (((cstr (strB "longfilename.txt")).foldl (· + ·) 0 % (42 * 42)) % 42) 0 :=
  extract_shortname_checksum_base42 (strB "longfilename.txt") (strB "LONGF~@P.TXT") (by decide)

/-! ## Dot and dot-dot entry emission (src/smb_common.c lines 290-331)

The encode callback `fn`, the pattern matcher `is_matched` and the kstat
filling live outside src/.  Modelled from the spec: the pattern matcher is an
arbitrary predicate on the two pseudo-entries; each invocation of the encode
callback either encodes the entry and leaves a positive out_buf_len, or
reports buffer exhaustion (out_buf_len becomes non-positive) having encoded
nothing — per the spec, an exhaustion report means the entry must be safely
retried on the next pass — or fails with a non-zero return code having encoded
nothing.  The callback outcomes of one emitter call are an oracle indexed by
the invocation number within that call.  The status information passed to the
callback is the one the code fetches: generic_fillattr(PARENT_INODE(dir)),
with PARENT_INODE modelled from the spec as the attributes of the parent
directory, for both entries.
-/

inductive DotEntry
  | dot
  | dotdot
deriving DecidableEq

inductive EncOutcome
  | ok
  | full
  | err (rc : Int)
deriving DecidableEq

/-- Per-directory enumeration state and the two stat sources: dot_dotdot[0],
dot_dotdot[1], the attributes of the directory itself and of its parent. -/
structure DirHandle where
  dotEmitted : Bool
  dotdotEmitted : Bool
  selfStat : Nat
  parentStat : Nat
deriving DecidableEq

def DirHandle.emitted (d : DirHandle) : DotEntry → Bool
  | .dot => d.dotEmitted
  | .dotdot => d.dotdotEmitted

/-- Result of one iteration of the i-loop body (lines 306-327) for one entry:
the updated emitted flag, the encode events (entry, stat value passed to fn),
whether fn was invoked, and the break return code if the body broke out. -/
structure EntryStepOut where
  marked : Bool
  events : List (DotEntry × Nat)
  consumed : Bool
  brk : Option Int
deriving DecidableEq

/-- One iteration of the loop body: skip if already emitted; a pattern
mismatch marks without encoding; otherwise fn runs and the body breaks on a
non-zero rc or on out_buf_len ≤ 0 without marking, and marks after a
successful encode. -/
def entryStep (pstat : Nat) (pat : DotEntry → Bool) (out : EncOutcome)
    (marked : Bool) (e : DotEntry) : EntryStepOut :=
  if marked then ⟨true, [], false, none⟩
  else if pat e = false then ⟨true, [], false, none⟩
  else
    match out with
    | .err rc => ⟨false, [], true, some rc⟩
    | .full => ⟨false, [], true, some 0⟩
    | .ok => ⟨true, [(e, pstat)], true, none⟩

/-- cifsd_populate_dot_dotdot_entries (smb_common.c lines 290-331): the "."
iteration followed by the ".." iteration, returning the updated state, the
encode events, and rc. -/
def cifsd_populate_dot_dotdot_entries (pat : DotEntry → Bool)
    (oracle : Nat → EncOutcome) (dir : DirHandle) :
    DirHandle × List (DotEntry × Nat) × Int :=
  let s1 := entryStep dir.parentStat pat (oracle 0) dir.dotEmitted .dot
  let dir1 : DirHandle := { dir with dotEmitted := s1.marked }
  match s1.brk with
  | some rc => (dir1, s1.events, rc)
  | none =>
    let inv1 := if s1.consumed then 1 else 0
    let s2 := entryStep dir.parentStat pat (oracle inv1) dir.dotdotEmitted .dotdot
    let dir2 : DirHandle := { dir1 with dotdotEmitted := s2.marked }
    match s2.brk with
    | some rc => (dir2, s1.events ++ s2.events, rc)
    | none => (dir2, s1.events ++ s2.events, 0)

/-- Repeated emitter calls over the same enumeration state, one oracle per
call, collecting all encode events. -/
def runPopulateCalls (pat : DotEntry → Bool) :
    List (Nat → EncOutcome) → DirHandle → DirHandle × List (DotEntry × Nat)
  | [], dir => (dir, [])
  | o :: os, dir =>
    let r := cifsd_populate_dot_dotdot_entries pat o dir
    let rest := runPopulateCalls pat os r.1
    (rest.1, r.2.1 ++ rest.2)

/-- Claim C4, evaluated on a directory whose own attributes (1) differ from
the parent attributes (2): the encode callback receives the parent attributes
for the "." entry as well, not the self attributes the claim requires, because
line 317 fetches generic_fillattr(PARENT_INODE(dir)) for both entries. -/
theorem dot_entry_encoded_with_parent_stat :
    (cifsd_populate_dot_dotdot_entries (fun _ => true) (fun _ => .ok)
        ⟨false, false, 1, 2⟩).2.1 = [(.dot, 2), (.dotdot, 2)] ∧
    (DirHandle.mk false false 1 2).selfStat = 1 ∧
    (DirHandle.mk false false 1 2).parentStat = 2 ∧
    (2 : Nat) ≠ 1 := by
  decide

theorem populate_call_facts (pat : DotEntry → Bool) (o : Nat → EncOutcome)
    (dir : DirHandle) (e : DotEntry) :
    (dir.emitted e = true →
      (((cifsd_populate_dot_dotdot_entries pat o dir).2.1.map Prod.fst).count e = 0 ∧
       (cifsd_populate_dot_dotdot_entries pat o dir).1.emitted e = true)) ∧
    (dir.emitted e = false →
      (((cifsd_populate_dot_dotdot_entries pat o dir).2.1.map Prod.fst).count e ≤ 1 ∧
       (((cifsd_populate_dot_dotdot_entries pat o dir).2.1.map Prod.fst).count e = 1 →
         (cifsd_populate_dot_dotdot_entries pat o dir).1.emitted e = true) ∧
       (pat e = false →
         ((cifsd_populate_dot_dotdot_entries pat o dir).2.1.map Prod.fst).count e = 0))) := by
  cases e <;>
    cases hdot : dir.dotEmitted <;>
      cases hdd : dir.dotdotEmitted <;>
        cases hp1 : pat .dot <;>
          cases hp2 : pat .dotdot <;>
            rcases h0 : o 0 with _ | _ | rc0 <;>
              rcases h1 : o 1 with _ | _ | rc1 <;>
                simp_all [cifsd_populate_dot_dotdot_entries, entryStep, DirHandle.emitted]

theorem runPopulate_count (pat : DotEntry → Bool) (os : List (Nat → EncOutcome)) :
    ∀ (dir : DirHandle) (e : DotEntry),
      (dir.emitted e = true →
        ((runPopulateCalls pat os dir).2.map Prod.fst).count e = 0) ∧
      ((runPopulateCalls pat os dir).2.map Prod.fst).count e ≤ 1 ∧
      (pat e = false → ((runPopulateCalls pat os dir).2.map Prod.fst).count e = 0) := by
  induction os with
  | nil =>
    intro dir e
    refine ⟨fun _ => ?_, ?_, fun _ => ?_⟩ <;> simp [runPopulateCalls]
  | cons o os ih =>
    intro dir e
    obtain ⟨hcT, hcF⟩ := populate_call_facts pat o dir e
    obtain ⟨ih1, ih2, ih3⟩ := ih (cifsd_populate_dot_dotdot_entries pat o dir).1 e
    simp only [runPopulateCalls, List.map_append, List.count_append]
    refine ⟨fun hm => ?_, ?_, fun hp => ?_⟩
    · obtain ⟨h1, h2⟩ := hcT hm
      rw [h1, ih1 h2]
    · cases hm : dir.emitted e
      · obtain ⟨h1, h2, _⟩ := hcF hm
        rcases Nat.le_one_iff_eq_zero_or_eq_one.mp h1 with h | h
        · rw [h]
          simpa using ih2
        · rw [h, ih1 (h2 h)]
      · obtain ⟨h1, h2⟩ := hcT hm
        rw [h1, ih1 h2]
        omega
    · have hc1 : ((cifsd_populate_dot_dotdot_entries pat o dir).2.1.map Prod.fst).count e = 0 := by
        cases hm : dir.emitted e
        · exact (hcF hm).2.2 hp
        · exact (hcT hm).1
      rw [hc1, ih3 hp]

theorem runPopulate_marked (pat : DotEntry → Bool) (os : List (Nat → EncOutcome)) :
    ∀ (ss ps : Nat),
      runPopulateCalls pat os ⟨true, true, ss, ps⟩ = (⟨true, true, ss, ps⟩, []) := by
  induction os with
  | nil => intro ss ps; rfl
  | cons o os ih =>
    intro ss ps
    show runPopulateCalls pat (o :: os) ⟨true, true, ss, ps⟩ = _
    simp only [runPopulateCalls, cifsd_populate_dot_dotdot_entries, entryStep]
    simp [ih ss ps]

/-- Encode-callback oracle of the spec scenario: the destination buffer has
room for exactly one entry, so the first fn invocation of a call encodes and
every later one reports exhaustion. -/
def fillsAfterOne : Nat → EncOutcome := fun n => if n = 0 then .ok else .full

theorem runPopulate_fill_scenario (k ss ps : Nat) :
    (runPopulateCalls (fun _ => true) (List.replicate (k + 2) fillsAfterOne)
        ⟨false, false, ss, ps⟩).2.map Prod.fst = [.dot, .dotdot] := by
  have hrep : List.replicate (k + 2) fillsAfterOne =
      fillsAfterOne :: fillsAfterOne :: List.replicate k fillsAfterOne := by
    simp [List.replicate_succ]
  rw [hrep]
  simp only [runPopulateCalls, cifsd_populate_dot_dotdot_entries, entryStep, fillsAfterOne]
  simp [runPopulate_marked]

/-- Claim C9: dot-entry emission is pagination-safe.  First, across any
sequence of emitter calls starting from a fresh enumeration state, with
arbitrary contract-obeying encode outcomes in each call, each pseudo-entry is
encoded at most once, and an entry failing the pattern match is never encoded.
Second, in the spec scenario where the destination buffer fills after exactly
one entry in every call, any sequence of at least two calls encodes exactly
one "." and then one ".." record. -/
theorem dot_dotdot_pagination_safe :
    (∀ (pat : DotEntry → Bool) (oracles : List (Nat → EncOutcome)) (ss ps : Nat)
        (e : DotEntry),
      ((runPopulateCalls pat oracles ⟨false, false, ss, ps⟩).2.map Prod.fst).count e ≤ 1 ∧
      (pat e = false →
        ((runPopulateCalls pat oracles ⟨false, false, ss, ps⟩).2.map Prod.fst).count e = 0)) ∧
    (∀ (k ss ps : Nat),
      (runPopulateCalls (fun _ => true) (List.replicate (k + 2) fillsAfterOne)
          ⟨false, false, ss, ps⟩).2.map Prod.fst = [.dot, .dotdot]) := by
  constructor
  · intro pat oracles ss ps e
    obtain ⟨_, h2, h3⟩ := runPopulate_count pat oracles ⟨false, false, ss, ps⟩ e
    exact ⟨h2, h3⟩
  · exact runPopulate_fill_scenario

/-- Witness for C9: a pattern that rejects everything yields no "." encode at
all, and two buffer-fills-after-one-entry calls encode "." then ".." exactly
once. -/
theorem dot_dotdot_pagination_safe_witness :
    ((runPopulateCalls (fun _ => false) [fun _ => .ok] ⟨false, false, 0, 0⟩).2.map
        Prod.fst).count .dot = 0 ∧
    (runPopulateCalls (fun _ => true) (List.replicate 2 fillsAfterOne)
        ⟨false, false, 0, 0⟩).2.map Prod.fst = [.dot, .dotdot] :=
  ⟨(dot_dotdot_pagination_safe.1 (fun _ => false) [fun _ => .ok] 0 0 .dot).2 rfl,
   dot_dotdot_pagination_safe.2 0 0 0⟩

/-! ## Directory record filler (src/smb_common.c lines 423-450) -/

/-- Modelled from the spec: the fixed record header size, sizeof(struct
cifsd_dirent); the struct (two u64 fields, two unsigned int fields, then the
flexible name array) lives in a header not under src/. -/
def cifsdDirentHeaderSize : Nat := 24

/-- Modelled from the spec: the one-page capacity of the record buffer. -/
def PAGE_SIZE : Nat := 4096

/-- Kernel ALIGN(x, a): round x up to the next multiple of a. -/
def ALIGN (x a : Nat) : Nat := (x + a - 1) / a * a

/-- One appended directory record: the header fields written at lines 441-444
and the name bytes copied at line 445. -/
structure CifsdDirent where
  ino : Nat
  off : Nat
  d_type : Nat
  namelen : Nat
  name : List Nat
deriving DecidableEq

/-- struct cifsd_readdir_data as used by cifsd_fill_dirent: the used length,
the entry count, the full flag, and the record area content. -/
structure ReaddirData where
  used : Nat
  dirent_count : Nat
  isFull : Bool
  entries : List CifsdDirent
deriving DecidableEq

/-- cifsd_fill_dirent (smb_common.c lines 423-450): reclen is the header size
plus the name length aligned up to sizeof(u64); on overflow of the page the
full flag is set and -EINVAL returned with nothing written; otherwise the
record is appended and used and dirent_count advance. -/
def cifsd_fill_dirent (buf : ReaddirData) (name : List Nat) (namlen : Nat)
    (off ino d_type : Nat) : ReaddirData × Int :=
  let reclen := ALIGN (cifsdDirentHeaderSize + namlen) 8
  if PAGE_SIZE < buf.used + reclen then
    ({ buf with isFull := true }, -22)
  else
    ({ used := buf.used + reclen,
       dirent_count := buf.dirent_count + 1,
       isFull := buf.isFull,
       entries := buf.entries ++ [⟨ino, off, d_type, namlen, name.take namlen⟩] }, 0)

/-- Claim C10: the record length is the fixed header size plus the name
length rounded up to 8-byte alignment; if appending would exceed the one-page
capacity the filler fails with the full condition leaving used length, entry
count and contents untouched, and otherwise it appends the whole record and
advances both counters. -/
theorem fill_dirent_no_partial_write (buf : ReaddirData) (name : List Nat)
    (namlen off ino d_type : Nat) :
    (ALIGN (cifsdDirentHeaderSize + namlen) 8 % 8 = 0 ∧
     cifsdDirentHeaderSize + namlen ≤ ALIGN (cifsdDirentHeaderSize + namlen) 8 ∧
     ALIGN (cifsdDirentHeaderSize + namlen) 8 < cifsdDirentHeaderSize + namlen + 8) ∧
    (PAGE_SIZE < buf.used + ALIGN (cifsdDirentHeaderSize + namlen) 8 →
      (cifsd_fill_dirent buf name namlen off ino d_type).2 = -22 ∧
      (cifsd_fill_dirent buf name namlen off ino d_type).1.isFull = true ∧
      (cifsd_fill_dirent buf name namlen off ino d_type).1.used = buf.used ∧
      (cifsd_fill_dirent buf name namlen off ino d_type).1.dirent_count = buf.dirent_count ∧
      (cifsd_fill_dirent buf name namlen off ino d_type).1.entries = buf.entries) ∧
    (buf.used + ALIGN (cifsdDirentHeaderSize + namlen) 8 ≤ PAGE_SIZE →
      (cifsd_fill_dirent buf name namlen off ino d_type).2 = 0 ∧
      (cifsd_fill_dirent buf name namlen off ino d_type).1.used =
        buf.used + ALIGN (cifsdDirentHeaderSize + namlen) 8 ∧
      (cifsd_fill_dirent buf name namlen off ino d_type).1.dirent_count =
        buf.dirent_count + 1 ∧
      (cifsd_fill_dirent buf name namlen off ino d_type).1.entries =
        buf.entries ++ [⟨ino, off, d_type, namlen, name.take namlen⟩]) := by
  refine ⟨⟨?_, ?_, ?_⟩, fun h => ?_, fun h => ?_⟩
  · unfold ALIGN
    exact Nat.mul_mod_left _ 8
  · unfold ALIGN
    omega
  · unfold ALIGN
    omega
  · simp [cifsd_fill_dirent, h]
  · have h' : ¬ PAGE_SIZE < buf.used + ALIGN (cifsdDirentHeaderSize + namlen) 8 := by omega
    simp [cifsd_fill_dirent, h']

/-- Witness for C10: a one-byte name on a nearly full buffer is rejected with
the buffer untouched, and the same record on an empty buffer is appended with
used length 32 = ALIGN(24 + 1, 8). -/
theorem fill_dirent_no_partial_write_witness :
    ((cifsd_fill_dirent ⟨4090, 7, false, []⟩ [65] 1 0 0 0).2 = -22 ∧
     (cifsd_fill_dirent ⟨4090, 7, false, []⟩ [65] 1 0 0 0).1.isFull = true ∧
     (cifsd_fill_dirent ⟨4090, 7, false, []⟩ [65] 1 0 0 0).1.used = (4090 : Nat) ∧
     (cifsd_fill_dirent ⟨4090, 7, false, []⟩ [65] 1 0 0 0).1.dirent_count = (7 : Nat) ∧
     (cifsd_fill_dirent ⟨4090, 7, false, []⟩ [65] 1 0 0 0).1.entries = []) ∧
    ((cifsd_fill_dirent ⟨0, 0, false, []⟩ [65] 1 0 0 0).2 = 0 ∧
     (cifsd_fill_dirent ⟨0, 0, false, []⟩ [65] 1 0 0 0).1.used =
       0 + ALIGN (cifsdDirentHeaderSize + 1) 8 ∧
     (cifsd_fill_dirent ⟨0, 0, false, []⟩ [65] 1 0 0 0).1.dirent_count = (0 : Nat) + 1 ∧
     (cifsd_fill_dirent ⟨0, 0, false, []⟩ [65] 1 0 0 0).1.entries =
       [] ++ [⟨0, 0, 0, 1, [65].take 1⟩]) :=
  ⟨(fill_dirent_no_partial_write ⟨4090, 7, false, []⟩ [65] 1 0 0 0).2.1 (by decide),
   (fill_dirent_no_partial_write ⟨0, 0, false, []⟩ [65] 1 0 0 0).2.2 (by decide)⟩

/-! ## Socket read loop (src/connect.c lines 36-165)

A kvec is a segment (base address, length) of the destination; memory write
effects are recorded as (address, byte) events.  The underlying
kernel_recvmsg results are a script of Int return values consumed one per
loop iteration; a positive result c delivers the next c bytes of the peer
byte stream `data` into the current sub-view.  Errno values: EAGAIN = 11,
EINTR = 4, ERESTARTSYS = 512, ESHUTDOWN = 108.
-/

structure KVec where
  base : Nat
  len : Nat
deriving DecidableEq

/-- Addresses covered by one segment: base, base+1, ..., base+len-1. -/
def segAddrs : Nat → Nat → List Nat
  | _, 0 => []
  | b, l + 1 => b :: segAddrs (b + 1) l

/-- Addresses covered by a kvec array, in destination order. -/
def kvecAddrs : List KVec → List Nat
  | [] => []
  | v :: rest => segAddrs v.base v.len ++ kvecAddrs rest

/-- kvec_array_init (connect.c lines 36-57): consume `bytes` bytes of the base
vector, skipping fully consumed (and zero-length) segments and offsetting into
the segment where the previous partial read stopped. -/
def kvec_array_init : List KVec → Nat → List KVec
  | [], _ => []
  | v :: rest, bytes =>
    if bytes = 0 then
      if v.len = 0 then kvec_array_init rest 0 else v :: rest
    else if v.len ≤ bytes then kvec_array_init rest (bytes - v.len)
    else ⟨v.base + bytes, v.len - bytes⟩ :: rest

theorem segAddrs_nil (b : Nat) : segAddrs b 0 = [] := rfl

theorem segAddrs_length : ∀ (l b : Nat), (segAddrs b l).length = l
  | 0, _ => rfl
  | l + 1, b => by simp [segAddrs, segAddrs_length l (b + 1)]

theorem segAddrs_drop : ∀ (l b k : Nat), (segAddrs b l).drop k = segAddrs (b + k) (l - k)
  | 0, b, k => by simp [segAddrs]
  | l + 1, b, 0 => by simp [segAddrs]
  | l + 1, b, k + 1 => by
    show (segAddrs (b + 1) l).drop k = _
    rw [segAddrs_drop l (b + 1) k, show b + 1 + k = b + (k + 1) by omega,
      show l - k = l + 1 - (k + 1) by omega]

/-- The recomputed sub-view covers exactly the destination addresses from
offset `bytes` on. -/
theorem kvecAddrs_kvec_array_init :
    ∀ (iov : List KVec) (bytes : Nat),
      kvecAddrs (kvec_array_init iov bytes) = (kvecAddrs iov).drop bytes
  | [], bytes => by simp [kvec_array_init, kvecAddrs]
  | v :: rest, bytes => by
    by_cases h0 : bytes = 0
    · subst h0
      by_cases hl : v.len = 0
      · simp [kvec_array_init, hl, kvecAddrs, kvecAddrs_kvec_array_init rest 0,
          segAddrs_nil]
      · simp [kvec_array_init, hl, kvecAddrs]
    · by_cases hle : v.len ≤ bytes
      · have hlen : (segAddrs v.base v.len).length = v.len := segAddrs_length _ _
        rw [show kvec_array_init (v :: rest) bytes = kvec_array_init rest (bytes - v.len) by
              simp [kvec_array_init, h0, hle]]
        rw [kvecAddrs_kvec_array_init rest (bytes - v.len)]
        show _ = (segAddrs v.base v.len ++ kvecAddrs rest).drop bytes
        conv_rhs => rw [show bytes = (segAddrs v.base v.len).length + (bytes - v.len) by omega]
        rw [List.drop_append]
      · have hlt : bytes < v.len := by omega
        have hlen : (segAddrs v.base v.len).length = v.len := segAddrs_length _ _
        rw [show kvec_array_init (v :: rest) bytes =
              (⟨v.base + bytes, v.len - bytes⟩ : KVec) :: rest by
              simp [kvec_array_init, h0, hle]]
        show segAddrs (v.base + bytes) (v.len - bytes) ++ kvecAddrs rest =
          (segAddrs v.base v.len ++ kvecAddrs rest).drop bytes
        rw [List.drop_append_of_le_length (by omega), segAddrs_drop]

inductive TcpStatus
  | good
  | exiting
  | needReconnect
deriving DecidableEq

/-- Modelled from the spec and the message at connect.c line 95 ("No response
from client in 120 secs"): the keep-alive echo interval is 60 time units, so
the liveness window is 2 * 60. -/
def SMB_ECHO_INTERVAL : Nat := 60

/-- Connection fields read by the loop; smb2_server is
CONFIG_CIFS_SMB2_SERVER, which compiles the liveness check in. -/
structure TcpServerInfo where
  jiffies : Nat
  last_active : Nat
  tcp_status : TcpStatus
  smb2_server : Bool
deriving DecidableEq

/-- server_unresponsive (connect.c lines 90-102): time_after(jiffies,
last_active + 2 * SMB_ECHO_INTERVAL); always false when the SMB2 server is
compiled out. -/
def server_unresponsive (s : TcpServerInfo) : Bool :=
  s.smb2_server && decide (s.last_active + 2 * SMB_ECHO_INTERVAL < s.jiffies)

/-- Read loop of cifssrv_readv_from_socket (connect.c lines 131-165),
returning the final total_read (none when the given recvmsg script is
exhausted with bytes still outstanding), the (address, byte) write events, and
the number of recvmsg invocations.  Each iteration re-derives the sub-view
with kvec_array_init at the bytes consumed so far; a recvmsg result c > 0
writes the next c peer bytes there; transient results (-ERESTARTSYS, -EAGAIN,
-EINTR) retry without decrementing to_read; other non-positive results abort
with -EAGAIN, an Exiting status with -ESHUTDOWN and a NeedReconnect status
with -EAGAIN. -/
def readvLoop (server : TcpServerInfo) (iov_orig : List KVec) (data : List Int) :
    List Int → Nat → Nat → Option Int × List (Nat × Int) × Nat
  | _, total_read, 0 => (some (Int.ofNat total_read), [], 0)
  | script, total_read, to_read + 1 =>
    if server_unresponsive server then (some (-11), [], 0)
    else
      match script with
      | [] => (none, [], 0)
      | c :: script' =>
        let segs := kvec_array_init iov_orig total_read
        let ev := if 0 < c then
            ((kvecAddrs segs).take c.toNat).zip ((data.drop total_read).take c.toNat)
          else []
        if server.tcp_status = .exiting then (some (-108), ev, 1)
        else if server.tcp_status = .needReconnect then (some (-11), ev, 1)
        else if c = -512 ∨ c = -11 ∨ c = -4 then
          let r := readvLoop server iov_orig data script' total_read (to_read + 1)
          (r.1, ev ++ r.2.1, r.2.2 + 1)
        else if c ≤ 0 then (some (-11), ev, 1)
        else
          let r := readvLoop server iov_orig data script' (total_read + c.toNat)
            (to_read + 1 - c.toNat)
          (r.1, ev ++ r.2.1, r.2.2 + 1)

/-- cifssrv_readv_from_socket (connect.c lines 114-165) after a successful
iovec allocation: the loop starting at total_read = 0. -/
def cifssrv_readv_from_socket (server : TcpServerInfo) (iov_orig : List KVec)
    (data : List Int) (script : List Int) (to_read : Nat) :
    Option Int × List (Nat × Int) × Nat :=
  readvLoop server iov_orig data script 0 to_read

/-- A recvmsg script that feeds exactly n bytes: once nothing remains the
loop stops regardless of the remaining script; a transient result makes no
progress; a positive chunk c ≤ remaining delivers c bytes. -/
inductive Feeds : List Int → Nat → Prop
  | stop (s : List Int) : Feeds s 0
  | trans (c : Int) (s : List Int) (n : Nat) (hc : c = -512 ∨ c = -11 ∨ c = -4)
      (h : Feeds s n) : Feeds (c :: s) n
  | chunk (c : Int) (s : List Int) (n : Nat) (hc : 0 < c) (hle : c.toNat ≤ n)
      (h : Feeds s (n - c.toNat)) : Feeds (c :: s) n

theorem readvLoop_transient_step (server : TcpServerInfo) (iov : List KVec)
    (data : List Int) (c : Int) (s : List Int) (total m : Nat)
    (hresp : server_unresponsive server = false) (hstat : server.tcp_status = .good)
    (hc : c = -512 ∨ c = -11 ∨ c = -4) :
    readvLoop server iov data (c :: s) total (m + 1) =
      ((readvLoop server iov data s total (m + 1)).1,
       (readvLoop server iov data s total (m + 1)).2.1,
       (readvLoop server iov data s total (m + 1)).2.2 + 1) := by
  have hpos : ¬ (0 < c) := by rcases hc with h | h | h <;> simp [h]
  simp [readvLoop, hresp, hstat, hc, hpos]

theorem readvLoop_chunk_step (server : TcpServerInfo) (iov : List KVec)
    (data : List Int) (c : Int) (s : List Int) (total m : Nat)
    (hresp : server_unresponsive server = false) (hstat : server.tcp_status = .good)
    (hc : 0 < c) :
    readvLoop server iov data (c :: s) total (m + 1) =
      ((readvLoop server iov data s (total + c.toNat) (m + 1 - c.toNat)).1,
       ((kvecAddrs (kvec_array_init iov total)).take c.toNat).zip
           ((data.drop total).take c.toNat) ++
         (readvLoop server iov data s (total + c.toNat) (m + 1 - c.toNat)).2.1,
       (readvLoop server iov data s (total + c.toNat) (m + 1 - c.toNat)).2.2 + 1) := by
  have h1 : ¬ (c = -512 ∨ c = -11 ∨ c = -4) := by
    rintro (h | h | h) <;> omega
  have h2 : ¬ (c ≤ 0) := by omega
  simp [readvLoop, hresp, hstat, h1, h2, hc]

theorem readvLoop_feeds (server : TcpServerInfo) (iov : List KVec) (data : List Int)
    (hresp : server_unresponsive server = false) (hstat : server.tcp_status = .good)
    {script : List Int} {n : Nat} (hf : Feeds script n) :
    ∀ total, total + n ≤ (kvecAddrs iov).length → total + n ≤ data.length →
      (readvLoop server iov data script total n).1 = some (Int.ofNat (total + n)) ∧
      (readvLoop server iov data script total n).2.1 =
        (((kvecAddrs iov).drop total).take n).zip ((data.drop total).take n) := by
  induction hf with
  | stop s =>
    intro total _ _
    simp [readvLoop]
  | trans c s n hc hfs ih =>
    intro total h1 h2
    cases n with
    | zero => simp [readvLoop]
    | succ m =>
      rw [readvLoop_transient_step server iov data c s total m hresp hstat hc]
      exact ih total h1 h2
  | chunk c s n hc hle hfs ih =>
    intro total h1 h2
    cases n with
    | zero => omega
    | succ m =>
      rw [readvLoop_chunk_step server iov data c s total m hresp hstat hc]
      have harith : total + c.toNat + (m + 1 - c.toNat) = total + (m + 1) := by omega
      obtain ⟨ihr, ihe⟩ := ih (total + c.toNat) (by omega) (by omega)
      refine ⟨by rw [ihr, show total + c.toNat + (m + 1 - c.toNat) = total + (m + 1) by omega], ?_⟩
      rw [ihe, kvecAddrs_kvec_array_init]
      have hdropA : (kvecAddrs iov).drop (total + c.toNat) =
          ((kvecAddrs iov).drop total).drop c.toNat := by
        rw [List.drop_drop]
      have hdropD : data.drop (total + c.toNat) = (data.drop total).drop c.toNat := by
        rw [List.drop_drop]
      rw [hdropA, hdropD]
      have hlenA : (((kvecAddrs iov).drop total).take c.toNat).length = c.toNat := by
        rw [List.length_take, List.length_drop]
        omega
      have hlenD : (((data.drop total).take c.toNat)).length = c.toNat := by
        rw [List.length_take, List.length_drop]
        omega
      rw [← List.zip_append (by rw [hlenA, hlenD])]
      rw [← List.take_add, ← List.take_add,
        show c.toNat + (m + 1 - c.toNat) = m + 1 by omega]

/-- Claim C8: for a read of N bytes into a possibly multi-segment
destination, fed by recvmsg results that interleave transient failures with
chunks of arbitrary size, the loop returns exactly N and the write events
place precisely the first N peer bytes at the first N destination addresses in
order, each retry recomputing the sub-view at the bytes consumed so far. -/
theorem readv_exact_assembles (server : TcpServerInfo) (iov : List KVec)
    (data script : List Int) (N : Nat)
    (hresp : server_unresponsive server = false)
    (hstat : server.tcp_status = .good)
    (hfeeds : Feeds script N)
    (hiov : N ≤ (kvecAddrs iov).length) (hdata : N ≤ data.length) :
    (cifssrv_readv_from_socket server iov data script N).1 = some (Int.ofNat N) ∧
    (cifssrv_readv_from_socket server iov data script N).2.1 =
      ((kvecAddrs iov).take N).zip (data.take N) := by
  have h := readvLoop_feeds server iov data hresp hstat hfeeds 0
    (by simpa using hiov) (by simpa using hdata)
  simpa [cifssrv_readv_from_socket] using h

/-- Witness for C8: 5 bytes across segments [0,2) and [10,13), delivered as a
2-byte chunk, a transient -EAGAIN, then a 3-byte chunk. -/
theorem readv_exact_assembles_witness :
    (cifssrv_readv_from_socket ⟨0, 0, .good, true⟩ [⟨0, 2⟩, ⟨10, 3⟩]
        [5, 6, 7, 8, 9] [2, -11, 3] 5).1 = some (Int.ofNat 5) ∧
    (cifssrv_readv_from_socket ⟨0, 0, .good, true⟩ [⟨0, 2⟩, ⟨10, 3⟩]
        [5, 6, 7, 8, 9] [2, -11, 3] 5).2.1 =
      ((kvecAddrs [⟨0, 2⟩, ⟨10, 3⟩]).take 5).zip (([5, 6, 7, 8, 9] : List Int).take 5) :=
  readv_exact_assembles ⟨0, 0, .good, true⟩ [⟨0, 2⟩, ⟨10, 3⟩] [5, 6, 7, 8, 9]
    [2, -11, 3] 5 (by decide) rfl
    (Feeds.chunk 2 _ 5 (by decide) (by decide)
      (Feeds.trans (-11) _ 3 (by simp)
        (Feeds.chunk 3 _ 3 (by decide) (by decide) (Feeds.stop []))))
    (by decide) (by decide)

/-- Claim C5 counterexample: the liveness-timeout abort returns -EAGAIN (-11),
the very same value the loop returns when the peer closes the stream (recvmsg
result 0) and when the status is NeedReconnect, so no distinct Timeout error
exists; the timeout path still attempts no recvmsg (invocation count 0). -/
theorem readv_timeout_error_not_distinct :
    (cifssrv_readv_from_socket ⟨200, 0, .good, true⟩ [⟨0, 4⟩] [1, 1, 1, 1] [4] 4).1 =
      some (-11) ∧
    (cifssrv_readv_from_socket ⟨200, 0, .good, true⟩ [⟨0, 4⟩] [1, 1, 1, 1] [4] 4).2.2 = 0 ∧
    (cifssrv_readv_from_socket ⟨0, 0, .good, true⟩ [⟨0, 4⟩] [1, 1, 1, 1] [0] 4).1 =
      some (-11) ∧
    (cifssrv_readv_from_socket ⟨0, 0, .needReconnect, true⟩ [⟨0, 4⟩] [1, 1, 1, 1] [4] 4).1 =
      some (-11) ∧
    server_unresponsive ⟨200, 0, .good, true⟩ = true ∧
    server_unresponsive ⟨0, 0, .good, true⟩ = false ∧
    server_unresponsive ⟨0, 0, .needReconnect, true⟩ = false := by
  decide

/-- Claim C5 as amended: when the liveness timestamp is more than
2 * SMB_ECHO_INTERVAL old at call time, the read fails immediately with
-EAGAIN — not a dedicated timeout code — performing no recvmsg invocation and
writing nothing, even though bytes remain outstanding. -/
theorem readv_unresponsive_aborts_before_read (server : TcpServerInfo)
    (iov : List KVec) (data script : List Int) (n : Nat)
    (hu : server_unresponsive server = true) (hn : 0 < n) :
    cifssrv_readv_from_socket server iov data script n = (some (-11), [], 0) := by
  cases n with
  | zero => omega
  | succ m => cases script <;> simp [cifssrv_readv_from_socket, readvLoop, hu]

/-- Witness for the amended C5 at a connection idle for 200 time units. -/
theorem readv_unresponsive_aborts_before_read_witness :
    cifssrv_readv_from_socket ⟨200, 0, .good, true⟩ [⟨0, 4⟩] [1, 1, 1, 1] [4] 4 =
      (some (-11), [], 0) :=
  readv_unresponsive_aborts_before_read ⟨200, 0, .good, true⟩ [⟨0, 4⟩] [1, 1, 1, 1]
    [4] 4 (by decide) (by decide)

/-! ## Negotiate command dispatch (src/smb_common.c lines 232-255, 452-505) -/

/-- Modelled from the spec: the two 4-byte header family markers (defined in
headers not under src/), as the standard little-endian values for
0xFF/0xFE followed by "SMB". -/
def SMB1_PROTO_NUMBER : Nat := 0x424d53ff
def SMB2_PROTO_NUMBER : Nat := 0x424d53fe

/-- Modelled from the spec: the negotiate command codes of the two families
(headers not under src/), distinct values. -/
def SMB2_NEGOTIATE_HE : Nat := 0x00
def SMB_COM_NEGOTIATE : Nat := 0x72

/-- Modelled from the spec: the rejection status written into the legacy
response header by smb_handle_negotiate. -/
def NT_STATUS_INVALID_LOGON_TYPE : Nat := 0xC000010B

/-- A negotiate request buffer, by its leading 4-byte family marker: a legacy
request with its dialect strings, a modern request with its dialect ids, or an
unrecognized marker. -/
inductive NegBuf
  | smb1 (dialects : List String)
  | smb2 (dialects : List Nat)
  | other
deriving DecidableEq

/-- The leading 4-byte marker of the buffer. -/
def NegBuf.marker : NegBuf → Nat
  | .smb1 _ => SMB1_PROTO_NUMBER
  | .smb2 _ => SMB2_PROTO_NUMBER
  | .other => 0

/-- cifsd_negotiate_smb_dialect (smb_common.c lines 232-255): dispatch on the
header marker to id-based or name-based matching; unknown markers give
BAD_PROT_ID. -/
def cifsd_negotiate_smb_dialect (conf : ServerConf) (table : List SmbProtocol) :
    NegBuf → Nat
  | .smb2 ds => cifsd_lookup_dialect_by_id conf ds table
  | .smb1 ds => cifsd_lookup_dialect_by_name conf ds table
  | .other => BAD_PROT_ID

/-- __smb2_negotiate (smb_common.c lines 452-456). -/
def smb2_negotiate_check (dialect : Nat) : Bool :=
  decide (SMB20_PROT_ID ≤ dialect) && decide (dialect ≤ SMB311_PROT_ID)

/-- Connection state touched by negotiation; smb2Initialized records that
cifsd_init_smb2_server_common ran (init_smb2_0_server / init_smb2_1_server are
outside src/; modelled from the spec as installing the modern family
operations). -/
structure Conn where
  dialect : Nat
  need_neg : Bool
  smb2Initialized : Bool
deriving DecidableEq

/-- The layout of the framed negotiate response: a modern-family negotiate
response (init_smb2_neg_rsp) or the legacy error response. -/
inductive RespLayout
  | smb2
  | smb1err
deriving DecidableEq

/-- Outcome of cifsd_smb_negotiate_common: the return value, the final
connection state, the response layout framed (if any), and the status code
written into a legacy response header (if any). -/
structure NegOutcome where
  ret : Int
  conn : Conn
  resp : Option RespLayout
  legacyStatus : Option Nat
deriving DecidableEq

/-- smb_handle_negotiate (smb_common.c lines 458-467), the variant compiled
when the legacy family is compiled out (no CONFIG_CIFS_INSECURE_SERVER): write
NT_STATUS_INVALID_LOGON_TYPE into the response and return -EINVAL. -/
def smb_handle_negotiate (conn : Conn) : NegOutcome :=
  { ret := -22, conn := conn, resp := some .smb1err,
    legacyStatus := some NT_STATUS_INVALID_LOGON_TYPE }

/-- cifsd_smb_negotiate_common (smb_common.c lines 469-505).  The modern
negotiate handler smb2_handle_negotiate lives outside src/, so its return
value is the parameter smb2HandleRet; the claims below only concern the
legacy-marker paths, which never reach it. -/
def cifsd_smb_negotiate_common (conf : ServerConf) (table : List SmbProtocol)
    (smb2HandleRet : Int) (command : Nat) (buf : NegBuf) (conn0 : Conn) : NegOutcome :=
  let conn := { conn0 with dialect := cifsd_negotiate_smb_dialect conf table buf }
  let command :=
    if command = SMB2_NEGOTIATE_HE ∧ buf.marker ≠ SMB2_PROTO_NUMBER then
      SMB_COM_NEGOTIATE
    else command
  if command = SMB2_NEGOTIATE_HE then
    { ret := smb2HandleRet, conn := conn, resp := some .smb2, legacyStatus := none }
  else if command = SMB_COM_NEGOTIATE then
    if smb2_negotiate_check conn.dialect then
      { ret := 0,
        conn := { conn with need_neg := true, smb2Initialized := true },
        resp := some .smb2, legacyStatus := none }
    else smb_handle_negotiate conn
  else
    { ret := -22, conn := conn, resp := none, legacyStatus := none }

/-- Claim C6: for a negotiate request carrying the legacy SMB1 header marker
(under either negotiate command code), if the dialect selected by
name-matching lies in the modern wire-id range [0x0202, 0x0311] the connection
is upgraded — the modern initializer runs, the response is framed in the
modern layout, and the call returns 0 — while a selection outside that range,
with the legacy family compiled out, frames the legacy error response with
NT_STATUS_INVALID_LOGON_TYPE and returns the negotiation error -EINVAL. -/
theorem smb1_negotiate_upgrade_or_reject (conf : ServerConf) (table : List SmbProtocol)
    (smb2HandleRet : Int) (offer : List String) (conn0 : Conn) (command : Nat)
    (hcmd : command = SMB_COM_NEGOTIATE ∨ command = SMB2_NEGOTIATE_HE) :
    (SMB20_PROT_ID ≤ cifsd_lookup_dialect_by_name conf offer table ∧
        cifsd_lookup_dialect_by_name conf offer table ≤ SMB311_PROT_ID →
      (cifsd_smb_negotiate_common conf table smb2HandleRet command
          (.smb1 offer) conn0).ret = 0 ∧
      (cifsd_smb_negotiate_common conf table smb2HandleRet command
          (.smb1 offer) conn0).conn.smb2Initialized = true ∧
      (cifsd_smb_negotiate_common conf table smb2HandleRet command
          (.smb1 offer) conn0).conn.need_neg = true ∧
      (cifsd_smb_negotiate_common conf table smb2HandleRet command
          (.smb1 offer) conn0).resp = some .smb2 ∧
      (cifsd_smb_negotiate_common conf table smb2HandleRet command
          (.smb1 offer) conn0).conn.dialect =
        cifsd_lookup_dialect_by_name conf offer table) ∧
    (¬ (SMB20_PROT_ID ≤ cifsd_lookup_dialect_by_name conf offer table ∧
        cifsd_lookup_dialect_by_name conf offer table ≤ SMB311_PROT_ID) →
      (cifsd_smb_negotiate_common conf table smb2HandleRet command
          (.smb1 offer) conn0).ret = -22 ∧
      (cifsd_smb_negotiate_common conf table smb2HandleRet command
          (.smb1 offer) conn0).resp = some .smb1err ∧
      (cifsd_smb_negotiate_common conf table smb2HandleRet command
          (.smb1 offer) conn0).legacyStatus = some NT_STATUS_INVALID_LOGON_TYPE) := by
  have hmark : (NegBuf.smb1 offer).marker ≠ SMB2_PROTO_NUMBER := by
    show SMB1_PROTO_NUMBER ≠ SMB2_PROTO_NUMBER
    decide
  have hne : SMB_COM_NEGOTIATE ≠ SMB2_NEGOTIATE_HE := by decide
  constructor
  · intro hd
    have hchk : smb2_negotiate_check (cifsd_lookup_dialect_by_name conf offer table) = true := by
      simp [smb2_negotiate_check, hd.1, hd.2]
    rcases hcmd with h | h <;> subst h <;>
      simp [cifsd_smb_negotiate_common, cifsd_negotiate_smb_dialect, hmark, hne, hchk]
  · intro hd
    have hchk : smb2_negotiate_check (cifsd_lookup_dialect_by_name conf offer table) = false := by
      simp only [smb2_negotiate_check, Bool.and_eq_false_iff, decide_eq_false_iff_not]
      omega
    rcases hcmd with h | h <;> subst h <;>
      simp [cifsd_smb_negotiate_common, cifsd_negotiate_smb_dialect, hmark, hne, hchk,
        smb_handle_negotiate]

/-- Witness for C6: a legacy-marker offer of "SMB 2.002" under range
[SMB2_PROT, SMB311_PROT] upgrades, and an offer of nothing the server
supports is rejected with the invalid-logon-type status. -/
theorem smb1_negotiate_upgrade_or_reject_witness :
    ((cifsd_smb_negotiate_common ⟨SMB2_PROT, SMB311_PROT⟩ (smb_protos false) 0
        SMB_COM_NEGOTIATE (.smb1 ["\x02SMB 2.002"]) ⟨0, false, false⟩).ret = 0 ∧
     (cifsd_smb_negotiate_common ⟨SMB2_PROT, SMB311_PROT⟩ (smb_protos false) 0
        SMB_COM_NEGOTIATE (.smb1 ["\x02SMB 2.002"]) ⟨0, false, false⟩).conn.smb2Initialized
          = true ∧
     (cifsd_smb_negotiate_common ⟨SMB2_PROT, SMB311_PROT⟩ (smb_protos false) 0
        SMB_COM_NEGOTIATE (.smb1 ["\x02SMB 2.002"]) ⟨0, false, false⟩).conn.need_neg = true ∧
     (cifsd_smb_negotiate_common ⟨SMB2_PROT, SMB311_PROT⟩ (smb_protos false) 0
        SMB_COM_NEGOTIATE (.smb1 ["\x02SMB 2.002"]) ⟨0, false, false⟩).resp = some .smb2 ∧
     (cifsd_smb_negotiate_common ⟨SMB2_PROT, SMB311_PROT⟩ (smb_protos false) 0
        SMB_COM_NEGOTIATE (.smb1 ["\x02SMB 2.002"]) ⟨0, false, false⟩).conn.dialect =
       cifsd_lookup_dialect_by_name ⟨SMB2_PROT, SMB311_PROT⟩ ["\x02SMB 2.002"]
         (smb_protos false)) ∧
    ((cifsd_smb_negotiate_common ⟨SMB2_PROT, SMB311_PROT⟩ (smb_protos false) 0
        SMB_COM_NEGOTIATE (.smb1 ["\x02NT LM 0.12"]) ⟨0, false, false⟩).ret = -22 ∧
     (cifsd_smb_negotiate_common ⟨SMB2_PROT, SMB311_PROT⟩ (smb_protos false) 0
        SMB_COM_NEGOTIATE (.smb1 ["\x02NT LM 0.12"]) ⟨0, false, false⟩).resp =
          some .smb1err ∧
     (cifsd_smb_negotiate_common ⟨SMB2_PROT, SMB311_PROT⟩ (smb_protos false) 0
        SMB_COM_NEGOTIATE (.smb1 ["\x02NT LM 0.12"]) ⟨0, false, false⟩).legacyStatus =
          some NT_STATUS_INVALID_LOGON_TYPE) :=
  ⟨(smb1_negotiate_upgrade_or_reject ⟨SMB2_PROT, SMB311_PROT⟩ (smb_protos false) 0
      ["\x02SMB 2.002"] ⟨0, false, false⟩ SMB_COM_NEGOTIATE (Or.inl rfl)).1 (by decide),
   (smb1_negotiate_upgrade_or_reject ⟨SMB2_PROT, SMB311_PROT⟩ (smb_protos false) 0
      ["\x02NT LM 0.12"] ⟨0, false, false⟩ SMB_COM_NEGOTIATE (Or.inl rfl)).2 (by decide)⟩

end Cifsd
